import Mathlib

/-!
Verification of the wesellgadgets storefront logic.

The development shallowly embeds the TypeScript sources:
  - namespace Store   : the zustand client store (src/store/index.ts);
  - namespace Backend : the express route handlers (backend/src/routes/orders.ts
    and backend/src/routes/payments.ts).

JavaScript numbers are embedded as exact rationals (prices, ratings) or
integers (quantities, stock counts, timestamps); `createdAt`, stored in the
TypeScript as an ISO date string and compared through
`new Date(s).getTime()`, is embedded directly as the parsed epoch value.
`String.prototype.localeCompare` is embedded as the lexicographic order on
strings. Array.prototype.sort is a stable comparator sort (ES2019), embedded
as `List.mergeSort` with the relation `comparator a b ≤ 0`.
-/

namespace Store

/-- A catalog product, translated from the `Product` interface of
src/store/index.ts. -/
structure Product where
  id : String
  name : String
  description : String
  price : ℚ
  originalPrice : Option ℚ
  condition : String
  category : String
  brand : String
  images : List String
  specifications : List (String × String)
  inStock : Bool
  stockCount : Int
  rating : ℚ
  reviewCount : Int
  featured : Bool
  createdAt : Int
  deriving DecidableEq

/-- A cart line, translated from the `CartItem` interface:
a product together with a quantity. -/
structure CartItem where
  product : Product
  quantity : Int
  deriving DecidableEq

/-- A category, translated from the `Category` interface of
src/store/index.ts. -/
structure Category where
  id : String
  name : String
  slug : String
  description : String
  image : String
  productCount : Int
  deriving DecidableEq

/-- `addItem` of the cart store: if an item with the same product id is
already in the cart, its quantity is incremented by `quantity` (default 1
at the call sites); otherwise a new `(product, quantity)` entry is
appended. -/
def addItem (items : List CartItem) (product : Product) (quantity : Int) : List CartItem :=
  match items.find? (fun item => item.product.id == product.id) with
  | some _ =>
      items.map (fun item =>
        if item.product.id == product.id then
          { item with quantity := item.quantity + quantity }
        else item)
  | none => items ++ [{ product := product, quantity := quantity }]

/-- `removeItem` of the cart store: drops every entry whose product id is
`productId`. -/
def removeItem (items : List CartItem) (productId : String) : List CartItem :=
  items.filter (fun item => item.product.id != productId)

/-- `updateQuantity` of the cart store: a quantity `≤ 0` removes the item,
otherwise the matching entry's quantity is replaced. -/
def updateQuantity (items : List CartItem) (productId : String) (quantity : Int) :
    List CartItem :=
  if quantity ≤ 0 then
    removeItem items productId
  else
    items.map (fun item =>
      if item.product.id == productId then { item with quantity := quantity } else item)

/-- `clearCart` of the cart store: the empty item list. -/
def clearCart : List CartItem := []

/-- `getTotalItems` of the cart store: reduce of the quantities, seed 0. -/
def getTotalItems (items : List CartItem) : Int :=
  items.foldl (fun total item => total + item.quantity) 0

/-- `getTotalPrice` of the cart store: reduce of price times quantity, seed 0. -/
def getTotalPrice (items : List CartItem) : ℚ :=
  items.foldl (fun total item => total + item.product.price * (item.quantity : ℚ)) 0

/-- The product ids of the cart, in cart order. -/
def cartIds (items : List CartItem) : List String :=
  items.map (fun item => item.product.id)

end Store

theorem foldl_add_int (f : Store.CartItem → Int) :
    ∀ (l : List Store.CartItem) (init : Int),
      l.foldl (fun t x => t + f x) init = init + (l.map f).sum := by
  intro l
  induction l with
  | nil => simp
  | cons x xs ih =>
      intro init
      simp only [List.foldl_cons, List.map_cons, List.sum_cons, ih]
      ring

theorem foldl_add_rat (f : Store.CartItem → ℚ) :
    ∀ (l : List Store.CartItem) (init : ℚ),
      l.foldl (fun t x => t + f x) init = init + (l.map f).sum := by
  intro l
  induction l with
  | nil => simp
  | cons x xs ih =>
      intro init
      simp only [List.foldl_cons, List.map_cons, List.sum_cons, ih]
      ring

/-- C8: `getTotalItems` sums the cart quantities, `getTotalPrice` sums
price × quantity over the cart, and both are 0 on the empty cart. -/
theorem cart_totals (items : List Store.CartItem) :
    Store.getTotalItems items = (items.map (fun i => i.quantity)).sum ∧
    Store.getTotalPrice items
      = (items.map (fun i => i.product.price * (i.quantity : ℚ))).sum ∧
    Store.getTotalItems [] = 0 ∧
    Store.getTotalPrice [] = 0 := by
  refine ⟨?_, ?_, rfl, rfl⟩
  · simpa using foldl_add_int (fun i => i.quantity) items 0
  · simpa using foldl_add_rat (fun i => i.product.price * (i.quantity : ℚ)) items 0

theorem cartIds_map (items : List Store.CartItem) (f : Store.CartItem → Store.CartItem)
    (hf : ∀ i, (f i).product.id = i.product.id) :
    Store.cartIds (items.map f) = Store.cartIds items := by
  unfold Store.cartIds
  rw [List.map_map]
  congr 1
  funext i
  exact hf i

theorem mem_cartIds (items : List Store.CartItem) (x : String) :
    x ∈ Store.cartIds items ↔ ∃ it ∈ items, it.product.id = x := by
  simp [Store.cartIds]

/-- C9: every cart operation preserves distinctness of the product ids in
the cart; `addItem` on a product already present rewrites that entry's
quantity (no second entry), and on an absent product appends exactly one
entry. -/
theorem cart_uniqueness (items : List Store.CartItem) (p : Store.Product)
    (q n : Int) (pid : String) (h : (Store.cartIds items).Nodup) :
    (Store.cartIds (Store.addItem items p q)).Nodup ∧
    (Store.cartIds (Store.removeItem items pid)).Nodup ∧
    (Store.cartIds (Store.updateQuantity items pid n)).Nodup ∧
    (Store.cartIds Store.clearCart).Nodup ∧
    (p.id ∈ Store.cartIds items →
      Store.addItem items p q
        = items.map (fun it =>
            if it.product.id == p.id then { it with quantity := it.quantity + q }
            else it)) ∧
    (p.id ∉ Store.cartIds items →
      Store.addItem items p q = items ++ [{ product := p, quantity := q }]) := by
  have hrem : ∀ y : String, (Store.cartIds (Store.removeItem items y)).Nodup := by
    intro y
    exact ((List.filter_sublist items).map _).nodup h
  refine ⟨?_, hrem pid, ?_, by simp [Store.clearCart, Store.cartIds], ?_, ?_⟩
  · unfold Store.addItem
    cases hf : items.find? (fun item => item.product.id == p.id) with
    | some it =>
        simp only
        rw [cartIds_map]
        · exact h
        · intro i
          by_cases hi : i.product.id == p.id <;> simp [hi]
    | none =>
        have hnp : p.id ∉ Store.cartIds items := by
          rw [mem_cartIds]
          rintro ⟨it, hit, hid⟩
          have := List.find?_eq_none.mp hf it hit
          simp [hid] at this
        simp only [Store.cartIds, List.map_append, List.map_cons, List.map_nil]
        rw [List.nodup_append]
        exact ⟨h, List.nodup_singleton _, by simpa [List.disjoint_singleton, Store.cartIds] using hnp⟩
  · unfold Store.updateQuantity
    by_cases hn : n ≤ 0
    · simpa [hn] using hrem pid
    · simp only [hn, if_false]
      rw [cartIds_map]
      · exact h
      · intro i
        by_cases hi : i.product.id == pid <;> simp [hi]
  · intro hp
    obtain ⟨it, hit, hid⟩ := (mem_cartIds items p.id).mp hp
    unfold Store.addItem
    cases hf : items.find? (fun item => item.product.id == p.id) with
    | some _ => rfl
    | none =>
        have := List.find?_eq_none.mp hf it hit
        simp [hid] at this
  · intro hp
    unfold Store.addItem
    cases hf : items.find? (fun item => item.product.id == p.id) with
    | some it =>
        have hmem := List.mem_of_find?_eq_some hf
        have hid : it.product.id = p.id := by
          have := List.find?_some hf
          simpa using this
        exact absurd ((mem_cartIds items p.id).mpr ⟨it, hmem, hid⟩) hp
    | none => rfl

/-- C10: `updateQuantity` with quantity ≤ 0 is exactly `removeItem`; with a
positive quantity it keeps the cart's length and rewrites only the entry
whose product id matches, leaving every other position unchanged. -/
theorem updateQuantity_spec (items : List Store.CartItem) (pid : String) (n : Int) :
    (n ≤ 0 → Store.updateQuantity items pid n = Store.removeItem items pid) ∧
    (0 < n →
      (Store.updateQuantity items pid n).length = items.length ∧
      ∀ k : Nat,
        (Store.updateQuantity items pid n)[k]?
          = (items[k]?).map (fun it =>
              if it.product.id == pid then { it with quantity := n } else it)) := by
  constructor
  · intro hn
    unfold Store.updateQuantity
    simp [hn]
  · intro hn
    have hn2 : ¬ n ≤ 0 := by omega
    unfold Store.updateQuantity
    simp [hn2]

def sampleProduct (i : String) (price : ℚ) : Store.Product :=
  { id := i, name := i, description := "", price := price, originalPrice := none,
    condition := "good", category := "phones", brand := "Acme", images := [],
    specifications := [], inStock := true, stockCount := 5, rating := 4,
    reviewCount := 1, featured := false, createdAt := 0 }

theorem cart_uniqueness_witness :
    (Store.cartIds
      (Store.addItem [{ product := sampleProduct "a" 1, quantity := 2 }]
        (sampleProduct "b" 2) 1)).Nodup ∧
    Store.addItem [{ product := sampleProduct "a" 1, quantity := 2 }]
        (sampleProduct "b" 2) 1
      = [{ product := sampleProduct "a" 1, quantity := 2 },
         { product := sampleProduct "b" 2, quantity := 1 }] := by
  have h := cart_uniqueness [{ product := sampleProduct "a" 1, quantity := 2 }]
    (sampleProduct "b" 2) 1 3 "a" (by decide)
  exact ⟨h.1, h.2.2.2.2.2 (by decide)⟩

theorem updateQuantity_spec_witness :
    Store.updateQuantity [{ product := sampleProduct "a" 1, quantity := 2 }] "a" 0
      = Store.removeItem [{ product := sampleProduct "a" 1, quantity := 2 }] "a" ∧
    (Store.updateQuantity [{ product := sampleProduct "a" 1, quantity := 2 }] "a" 7).length
      = 1 :=
  ⟨(updateQuantity_spec _ "a" 0).1 (by decide),
   ((updateQuantity_spec [{ product := sampleProduct "a" 1, quantity := 2 }] "a" 7).2
      (by decide)).1⟩

namespace Store

/-- The filter record of the product store (`ProductState.filters`). -/
structure Filters where
  category : String
  priceRange : ℚ × ℚ
  condition : List String
  brand : List String
  inStock : Bool
  deriving DecidableEq

/-- The five sort keys of the product store (`ProductState.sortBy`). -/
inductive SortKey where
  | name
  | priceLow
  | priceHigh
  | rating
  | newest
  deriving DecidableEq

/-- The product store state: products, categories, filters, sort key and
search query (`ProductState` of src/store/index.ts). -/
structure ProductState where
  products : List Product
  categories : List Category
  filters : Filters
  sortBy : SortKey
  searchQuery : String
  deriving DecidableEq

/-- JavaScript `String.prototype.includes` on the underlying characters:
`jsIncludes s sub` holds when `sub` occurs contiguously in `s`. -/
def charsIncludes : List Char → List Char → Bool
  | s, sub =>
    if sub.isPrefixOf s then true
    else
      match s with
      | [] => false
      | _ :: t => charsIncludes t sub

/-- `s.includes(sub)` for strings. -/
def jsIncludes (s sub : String) : Bool :=
  charsIncludes s.toList sub.toList

/-- The sequential filter passes of `getFilteredProducts`: search, category,
price range, condition, brand, in-stock, in source order. A JS string used
as a condition is truthy exactly when non-empty, and an array guard
`length > 0` is written as in the source. -/
def filterPass (st : ProductState) : List Product :=
  let f0 := st.products
  let f1 :=
    if st.searchQuery == "" then f0
    else
      f0.filter (fun product =>
        jsIncludes product.name.toLower st.searchQuery.toLower ||
        jsIncludes product.description.toLower st.searchQuery.toLower ||
        jsIncludes product.brand.toLower st.searchQuery.toLower)
  let f2 :=
    if st.filters.category == "" then f1
    else f1.filter (fun product => product.category == st.filters.category)
  let f3 :=
    f2.filter (fun product =>
      decide (st.filters.priceRange.1 ≤ product.price) &&
      decide (product.price ≤ st.filters.priceRange.2))
  let f4 :=
    if decide (0 < st.filters.condition.length) then
      f3.filter (fun product => st.filters.condition.contains product.condition)
    else f3
  let f5 :=
    if decide (0 < st.filters.brand.length) then
      f4.filter (fun product => st.filters.brand.contains product.brand)
    else f4
  if st.filters.inStock then f5.filter (fun product => product.inStock) else f5

/-- The comparator of the sorting `switch`, turned into the boolean
relation `comparator a b ≤ 0` used by a stable comparator sort. -/
def sortLe (k : SortKey) (a b : Product) : Bool :=
  match k with
  | .name => decide (a.name ≤ b.name)
  | .priceLow => decide (a.price ≤ b.price)
  | .priceHigh => decide (b.price ≤ a.price)
  | .rating => decide (b.rating ≤ a.rating)
  | .newest => decide (b.createdAt ≤ a.createdAt)

/-- `getFilteredProducts` of the product store: copy the products list,
apply the filter passes, sort the copy with the selected comparator. -/
def getFilteredProducts (st : ProductState) : List Product :=
  (filterPass st).mergeSort (sortLe st.sortBy)

/-- `getFilteredProducts` as a state transformer. The source body only
reads the store (one `get()`), copies the products array
(`[...products]`), and sorts that copy in place; it never calls `set`, so
the store after the call is the store before it. -/
def getFilteredProductsRun (st : ProductState) : List Product × ProductState :=
  let result := getFilteredProducts st
  (result, st)

/-- One product's verdict under all active filters, as a single boolean:
the conjunction, in pass order, of (skip-or-match) for each pass. -/
def matchesFilters (st : ProductState) (p : Product) : Bool :=
  (st.searchQuery == "" ||
    (jsIncludes p.name.toLower st.searchQuery.toLower ||
     jsIncludes p.description.toLower st.searchQuery.toLower ||
     jsIncludes p.brand.toLower st.searchQuery.toLower)) &&
  (st.filters.category == "" || p.category == st.filters.category) &&
  (decide (st.filters.priceRange.1 ≤ p.price) &&
   decide (p.price ≤ st.filters.priceRange.2)) &&
  (!decide (0 < st.filters.condition.length) ||
    st.filters.condition.contains p.condition) &&
  (!decide (0 < st.filters.brand.length) || st.filters.brand.contains p.brand) &&
  (!st.filters.inStock || p.inStock)

/-- The sort order selected by a key, as a relation on products. -/
def sortRel (k : SortKey) (a b : Product) : Prop :=
  match k with
  | .name => a.name ≤ b.name
  | .priceLow => a.price ≤ b.price
  | .priceHigh => b.price ≤ a.price
  | .rating => b.rating ≤ a.rating
  | .newest => b.createdAt ≤ a.createdAt

end Store

theorem filter_stage_skip {α : Type} (c : Bool) (p : α → Bool) (l : List α) :
    (if c then l else l.filter p) = l.filter (fun a => c || p a) := by
  cases c <;> simp

theorem filter_stage_app {α : Type} (c : Bool) (p : α → Bool) (l : List α) :
    (if c then l.filter p else l) = l.filter (fun a => !c || p a) := by
  cases c <;> simp

set_option maxHeartbeats 1000000 in
theorem filterPass_eq (st : Store.ProductState) :
    Store.filterPass st = st.products.filter (Store.matchesFilters st) := by
  unfold Store.filterPass
  simp only [filter_stage_skip, filter_stage_app]
  simp only [List.filter_filter]
  refine List.filter_congr ?_
  intro a _
  rw [Bool.eq_iff_iff]
  simp only [Store.matchesFilters, Bool.and_eq_true, Bool.or_eq_true]
  tauto

theorem sortLe_trans (k : Store.SortKey) (a b c : Store.Product) :
    Store.sortLe k a b = true → Store.sortLe k b c = true →
    Store.sortLe k a c = true := by
  cases k <;> simp only [Store.sortLe, decide_eq_true_eq] <;> intro h1 h2 <;>
    first
      | exact le_trans h1 h2
      | exact le_trans h2 h1

theorem sortLe_total (k : Store.SortKey) (a b : Store.Product) :
    (Store.sortLe k a b || Store.sortLe k b a) = true := by
  cases k <;> simp only [Store.sortLe, Bool.or_eq_true, decide_eq_true_eq] <;>
    exact le_total _ _

theorem sortLe_rel (k : Store.SortKey) (a b : Store.Product) :
    Store.sortLe k a b = true → Store.sortRel k a b := by
  cases k <;> simp [Store.sortLe, Store.sortRel]

theorem matchesFilters_iff (st : Store.ProductState) (p : Store.Product) :
    Store.matchesFilters st p = true ↔
      ((st.searchQuery ≠ "" →
         (Store.jsIncludes p.name.toLower st.searchQuery.toLower = true ∨
          Store.jsIncludes p.description.toLower st.searchQuery.toLower = true ∨
          Store.jsIncludes p.brand.toLower st.searchQuery.toLower = true)) ∧
       (st.filters.category ≠ "" → p.category = st.filters.category) ∧
       (st.filters.priceRange.1 ≤ p.price ∧ p.price ≤ st.filters.priceRange.2) ∧
       (st.filters.condition ≠ [] → p.condition ∈ st.filters.condition) ∧
       (st.filters.brand ≠ [] → p.brand ∈ st.filters.brand) ∧
       (st.filters.inStock = true → p.inStock = true)) := by
  unfold Store.matchesFilters
  simp only [Bool.and_eq_true, and_assoc]
  refine and_congr ?_ (and_congr ?_ (and_congr ?_ (and_congr ?_ (and_congr ?_
    (and_congr ?_ ?_))))) <;>
    (simp only [Bool.or_eq_true, beq_iff_eq, decide_eq_true_eq, Bool.not_eq_true',
       decide_eq_false_iff_not, Nat.not_lt, Nat.le_zero, List.length_eq_zero,
       List.elem_iff, ne_eq, Bool.eq_false_iff]
     try tauto)

/-- C2: `getFilteredProducts` returns exactly the products passing every
active filter (search over name, description or brand, case-insensitively;
category; inclusive price range; condition list; brand list; in-stock
flag), ordered by the selected sort key (name ascending, price ascending
for price-low, price descending for price-high, rating descending,
createdAt descending for newest). -/
theorem getFilteredProducts_spec (st : Store.ProductState) :
    (Store.getFilteredProducts st).Perm
      (st.products.filter (Store.matchesFilters st)) ∧
    (∀ p, p ∈ Store.getFilteredProducts st ↔
      (p ∈ st.products ∧
       (st.searchQuery ≠ "" →
         (Store.jsIncludes p.name.toLower st.searchQuery.toLower = true ∨
          Store.jsIncludes p.description.toLower st.searchQuery.toLower = true ∨
          Store.jsIncludes p.brand.toLower st.searchQuery.toLower = true)) ∧
       (st.filters.category ≠ "" → p.category = st.filters.category) ∧
       (st.filters.priceRange.1 ≤ p.price ∧ p.price ≤ st.filters.priceRange.2) ∧
       (st.filters.condition ≠ [] → p.condition ∈ st.filters.condition) ∧
       (st.filters.brand ≠ [] → p.brand ∈ st.filters.brand) ∧
       (st.filters.inStock = true → p.inStock = true))) ∧
    List.Pairwise (Store.sortRel st.sortBy) (Store.getFilteredProducts st) := by
  have hperm : (Store.getFilteredProducts st).Perm
      (st.products.filter (Store.matchesFilters st)) := by
    unfold Store.getFilteredProducts
    rw [← filterPass_eq]
    exact List.mergeSort_perm _ _
  refine ⟨hperm, ?_, ?_⟩
  · intro p
    rw [hperm.mem_iff, List.mem_filter, matchesFilters_iff]
  · have h := @List.sorted_mergeSort _ (Store.sortLe st.sortBy)
      (sortLe_trans st.sortBy) (sortLe_total st.sortBy) (Store.filterPass st)
    exact h.imp (fun hab => sortLe_rel st.sortBy _ _ hab)

/-- C7: `getFilteredProducts` changes no component of the store: products,
categories, filters, sort key and search query are the same after the call
as before it; the sort happens on a copy of the products array. -/
theorem getFilteredProducts_stateless (st : Store.ProductState) :
    (Store.getFilteredProductsRun st).2.products = st.products ∧
    (Store.getFilteredProductsRun st).2.categories = st.categories ∧
    (Store.getFilteredProductsRun st).2.filters = st.filters ∧
    (Store.getFilteredProductsRun st).2.sortBy = st.sortBy ∧
    (Store.getFilteredProductsRun st).2.searchQuery = st.searchQuery :=
  ⟨rfl, rfl, rfl, rfl, rfl⟩

def sampleState : Store.ProductState :=
  { products := [sampleProduct "a" 10, sampleProduct "b" 60],
    categories := [],
    filters := { category := "", priceRange := (0, 5000), condition := [],
                 brand := [], inStock := false },
    sortBy := Store.SortKey.priceLow,
    searchQuery := "" }

theorem getFilteredProducts_spec_witness :
    (Store.getFilteredProducts sampleState).Perm
      (sampleState.products.filter (Store.matchesFilters sampleState)) :=
  (getFilteredProducts_spec sampleState).1

namespace Backend

/-- A catalog product document as the order route reads it
(backend/src/routes/orders.ts): id, name, price, images, active flag and
stock count. The Mongoose schema file is not part of the sources; the
fields are the ones the route handlers access. -/
structure Product where
  id : String
  name : String
  price : ℚ
  images : List String
  isActive : Bool
  stockCount : Int
  deriving DecidableEq

/-- One line of a created order (the `orderItem` record built in
POST /api/orders). -/
structure OrderItem where
  product : String
  name : String
  price : ℚ
  quantity : Int
  image : Option String
  deriving DecidableEq

/-- The shipping address fields validated by POST /api/orders. -/
structure ShippingAddress where
  firstName : String
  lastName : String
  email : String
  address : String
  city : String
  zipCode : String
  deriving DecidableEq

/-- The `paymentResult` subdocument written by confirm-payment. -/
structure PaymentResult where
  id : String
  status : String
  updateTime : Int
  emailAddress : String
  deriving DecidableEq

/-- An order document with the fields the route handlers read and write.
A new order starts with status "pending", unpaid and undelivered. -/
structure Order where
  id : String
  user : String
  items : List OrderItem
  shippingAddress : ShippingAddress
  paymentMethod : String
  itemsPrice : ℚ
  taxPrice : ℚ
  shippingPrice : ℚ
  totalPrice : ℚ
  status : String
  isPaid : Bool
  paidAt : Option Int
  paymentResult : Option PaymentResult
  isDelivered : Bool
  deliveredAt : Option Int
  trackingNumber : Option String
  deriving DecidableEq

/-- One requested line of the order body: a product id and a quantity. -/
structure ReqItem where
  product : String
  quantity : Int
  deriving DecidableEq

/-- The POST /api/orders request body after JSON parsing. -/
structure CreateOrderReq where
  items : List ReqItem
  shippingAddress : ShippingAddress
  paymentMethod : String
  deriving DecidableEq

/-- Splitting a character list at a separator character (the character
list counterpart of `String.split`). -/
def splitOnChar (c : Char) : List Char → List (List Char)
  | [] => [[]]
  | x :: t =>
      if x == c then [] :: splitOnChar c t
      else
        match splitOnChar c t with
        | [] => [[x]]
        | h :: r => (x :: h) :: r

/-- `.trim().isLength(\x7b min: 1 \x7d)`: the string still has a character
after trimming, i.e. some character is not whitespace. -/
def trimNonEmpty (s : String) : Bool :=
  s.toList.any (fun c => !c.isWhitespace)

/-- Modelled from the spec: the semantics of the express-validator
`isEmail` check, whose implementation (validator.js) is not part of the
sources. Simplified to: one `@` separating a non-empty local part from a
domain that has at least two non-empty dot-separated labels. -/
def isEmailModel (s : String) : Bool :=
  match splitOnChar '@' s.toList with
  | [u, d] =>
      !u.isEmpty && decide (2 ≤ (splitOnChar '.' d).length) &&
        (splitOnChar '.' d).all (fun part => !part.isEmpty)
  | _ => false

/-- The express-validator chain of POST /api/orders: non-empty items
array, trimmed non-empty name/address fields, a valid email, and one of
the three payment methods. -/
def orderBodyValid (r : CreateOrderReq) : Bool :=
  !r.items.isEmpty &&
  trimNonEmpty r.shippingAddress.firstName &&
  trimNonEmpty r.shippingAddress.lastName &&
  isEmailModel r.shippingAddress.email &&
  trimNonEmpty r.shippingAddress.address &&
  trimNonEmpty r.shippingAddress.city &&
  trimNonEmpty r.shippingAddress.zipCode &&
  (r.paymentMethod == "stripe" || r.paymentMethod == "paypal" ||
    r.paymentMethod == "cash_on_delivery")

/-- `Product.findById`: the document store holds the products as a list;
lookup is by id. -/
def findProduct (db : List Product) (pid : String) : Option Product :=
  db.find? (fun p => p.id == pid)

/-- The validation loop of POST /api/orders: walk the requested items; a
missing or inactive product, or stock below the requested quantity, stops
with the route's 400 message; otherwise collect the order line and add
price × quantity into the running items total. -/
def buildOrderItems (db : List Product) : List ReqItem → Except String (List OrderItem × ℚ)
  | [] => Except.ok ([], 0)
  | i :: rest =>
      match findProduct db i.product with
      | none => Except.error ("Product " ++ i.product ++ " not found or inactive")
      | some p =>
          if !p.isActive then
            Except.error ("Product " ++ i.product ++ " not found or inactive")
          else if p.stockCount < i.quantity then
            Except.error ("Insufficient stock for " ++ p.name)
          else
            match buildOrderItems db rest with
            | Except.error e => Except.error e
            | Except.ok (os, total) =>
                Except.ok
                  ({ product := p.id, name := p.name, price := p.price,
                     quantity := i.quantity, image := p.images.head? } :: os,
                   p.price * (i.quantity : ℚ) + total)

/-- `Product.findByIdAndUpdate(pid, \x7b $inc: \x7b stockCount: -q \x7d \x7d)`. -/
def decStock (db : List Product) (pid : String) (q : Int) : List Product :=
  db.map (fun p =>
    if p.id == pid then { p with stockCount := p.stockCount - q } else p)

/-- The stock-update loop run after the order is created: one decrement
per requested item, in request order. -/
def applyStockUpdates (db : List Product) : List ReqItem → List Product
  | [] => db
  | i :: rest => applyStockUpdates (decStock db i.product i.quantity) rest

/-- The result of POST /api/orders: HTTP status, message, the created
order if any, and the product collection afterwards. -/
structure CreateOrderOutcome where
  statusCode : Nat
  message : String
  order : Option Order
  db : List Product
  deriving DecidableEq

/-- POST /api/orders: validate the body, validate the items against the
catalog while accumulating lines and the items total, price the order
(free shipping from $50, else $9.99; 8% tax), create it with status
"pending", then decrement each ordered product's stock. -/
def createOrder (db : List Product) (r : CreateOrderReq) (newOrderId userId : String) :
    CreateOrderOutcome :=
  if !orderBodyValid r then
    { statusCode := 400, message := "Validation failed", order := none, db := db }
  else
    match buildOrderItems db r.items with
    | Except.error msg =>
        { statusCode := 400, message := msg, order := none, db := db }
    | Except.ok (orderItems, itemsPrice) =>
        let shippingPrice : ℚ := if 50 ≤ itemsPrice then 0 else 999 / 100
        let taxPrice : ℚ := itemsPrice * (8 / 100)
        let totalPrice : ℚ := itemsPrice + shippingPrice + taxPrice
        let order : Order :=
          { id := newOrderId, user := userId, items := orderItems,
            shippingAddress := r.shippingAddress, paymentMethod := r.paymentMethod,
            itemsPrice := itemsPrice, taxPrice := taxPrice,
            shippingPrice := shippingPrice, totalPrice := totalPrice,
            status := "pending", isPaid := false, paidAt := none,
            paymentResult := none, isDelivered := false, deliveredAt := none,
            trackingNumber := none }
        { statusCode := 201, message := "Order created successfully",
          order := some order, db := applyStockUpdates db r.items }

/-- One requested item passes the loop's validation: its product exists,
is active, and has stock at least the requested quantity. -/
def itemPasses (db : List Product) (i : ReqItem) : Bool :=
  match findProduct db i.product with
  | none => false
  | some p => p.isActive && decide (i.quantity ≤ p.stockCount)

/-- The catalog price of a product id (0 when absent; only used under the
hypothesis that the lookup succeeds). -/
def priceOf (db : List Product) (pid : String) : ℚ :=
  match findProduct db pid with
  | none => 0
  | some p => p.price

/-- The stock count at a product id, when the product exists. -/
def stockOf (db : List Product) (pid : String) : Option Int :=
  (findProduct db pid).map (fun p => p.stockCount)

/-- Total quantity requested for one product id across the items list. -/
def totalQty (items : List ReqItem) (pid : String) : Int :=
  ((items.filter (fun i => i.product == pid)).map (fun i => i.quantity)).sum

end Backend

theorem buildOrderItems_ok (db : List Backend.Product) :
    ∀ items : List Backend.ReqItem, items.all (Backend.itemPasses db) = true →
      ∃ os, Backend.buildOrderItems db items
        = Except.ok
            (os, (items.map (fun i =>
              Backend.priceOf db i.product * (i.quantity : ℚ))).sum) := by
  intro items
  induction items with
  | nil =>
      intro _
      exact ⟨[], by simp [Backend.buildOrderItems]⟩
  | cons i rest ih =>
      intro h
      rw [List.all_cons, Bool.and_eq_true] at h
      obtain ⟨hi, hrest⟩ := h
      obtain ⟨os, hos⟩ := ih hrest
      unfold Backend.itemPasses at hi
      cases hp : Backend.findProduct db i.product with
      | none => rw [hp] at hi; simp at hi
      | some p =>
          rw [hp, Bool.and_eq_true, decide_eq_true_eq] at hi
          obtain ⟨hact, hstock⟩ := hi
          have hlt : ¬ (p.stockCount < i.quantity) := not_lt.mpr hstock
          refine ⟨{ product := p.id, name := p.name, price := p.price,
                    quantity := i.quantity, image := p.images.head? } :: os, ?_⟩
          unfold Backend.buildOrderItems
          rw [hp]
          simp only [hact, Bool.not_true, Bool.false_eq_true, if_false, hlt,
            if_true, hos, List.map_cons, List.sum_cons]
          congr 1
          simp [Backend.priceOf, hp]
  
theorem buildOrderItems_err (db : List Backend.Product) :
    ∀ items : List Backend.ReqItem, items.all (Backend.itemPasses db) = false →
      ∃ e, Backend.buildOrderItems db items = Except.error e := by
  intro items
  induction items with
  | nil => intro h; simp at h
  | cons i rest ih =>
      intro h
      rw [List.all_cons, Bool.and_eq_false_iff] at h
      by_cases hi : Backend.itemPasses db i = true
      · have hrest : rest.all (Backend.itemPasses db) = false := by
          rcases h with h | h
          · rw [hi] at h; cases h
          · exact h
        obtain ⟨e, he⟩ := ih hrest
        unfold Backend.itemPasses at hi
        cases hp : Backend.findProduct db i.product with
        | none => rw [hp] at hi; simp at hi
        | some p =>
            rw [hp, Bool.and_eq_true, decide_eq_true_eq] at hi
            obtain ⟨hact, hstock⟩ := hi
            have hlt : ¬ (p.stockCount < i.quantity) := not_lt.mpr hstock
            refine ⟨e, ?_⟩
            unfold Backend.buildOrderItems
            rw [hp]
            simp only [hact, Bool.not_true, Bool.false_eq_true, if_false, hlt,
              if_true, he]
      · unfold Backend.itemPasses at hi
        cases hp : Backend.findProduct db i.product with
        | none =>
            refine ⟨"Product " ++ i.product ++ " not found or inactive", ?_⟩
            unfold Backend.buildOrderItems
            rw [hp]
        | some p =>
            rw [hp, Bool.and_eq_true, decide_eq_true_eq] at hi
            push_neg at hi
            by_cases hact : p.isActive = true
            · have hlt : p.stockCount < i.quantity := hi hact
              refine ⟨"Insufficient stock for " ++ p.name, ?_⟩
              unfold Backend.buildOrderItems
              rw [hp]
              simp only [hact, Bool.not_true, Bool.false_eq_true, if_false, hlt,
                if_true]
            · have hact2 : p.isActive = false := by
                cases hb : p.isActive
                · rfl
                · exact absurd hb hact
              refine ⟨"Product " ++ i.product ++ " not found or inactive", ?_⟩
              unfold Backend.buildOrderItems
              rw [hp]
              simp only [hact2, Bool.not_false, if_true]

theorem findProduct_decStock (db : List Backend.Product) (pid tgt : String) (q : Int) :
    Backend.findProduct (Backend.decStock db tgt q) pid
      = (Backend.findProduct db pid).map
          (fun p =>
            if p.id == tgt then { p with stockCount := p.stockCount - q } else p) := by
  unfold Backend.findProduct Backend.decStock
  rw [List.find?_map]
  have hpred :
      ((fun p : Backend.Product => p.id == pid) ∘
        (fun p : Backend.Product =>
          if p.id == tgt then { p with stockCount := p.stockCount - q } else p))
        = (fun p : Backend.Product => p.id == pid) := by
    funext p
    by_cases hp : p.id == tgt <;> simp [Function.comp, hp]
  rw [hpred]

theorem stockOf_decStock (db : List Backend.Product) (pid tgt : String) (q : Int) :
    Backend.stockOf (Backend.decStock db tgt q) pid
      = (Backend.stockOf db pid).map (fun s => if pid = tgt then s - q else s) := by
  unfold Backend.stockOf
  rw [findProduct_decStock]
  cases hp : Backend.findProduct db pid with
  | none => simp
  | some p =>
      have hid : p.id = pid := by
        unfold Backend.findProduct at hp
        have := List.find?_some hp
        simpa using this
      simp only [Option.map_some, Option.map_map, Function.comp]
      by_cases h : pid = tgt <;> simp [hid, h]

theorem stockOf_apply :
    ∀ (items : List Backend.ReqItem) (db : List Backend.Product) (pid : String),
      Backend.stockOf (Backend.applyStockUpdates db items) pid
        = (Backend.stockOf db pid).map (fun s => s - Backend.totalQty items pid) := by
  intro items
  induction items with
  | nil =>
      intro db pid
      unfold Backend.applyStockUpdates Backend.totalQty
      cases Backend.stockOf db pid <;> simp
  | cons i rest ih =>
      intro db pid
      unfold Backend.applyStockUpdates
      rw [ih, stockOf_decStock, Option.map_map]
      cases Backend.stockOf db pid with
      | none => rfl
      | some s =>
          show some ((if pid = i.product then s - i.quantity else s)
              - Backend.totalQty rest pid)
            = some (s - Backend.totalQty (i :: rest) pid)
          congr 1
          unfold Backend.totalQty
          by_cases h : pid = i.product
          · subst h
            simp [List.filter_cons]
            ring
          · have hne : ¬ (i.product == pid) = true := by
              simp only [beq_iff_eq]
              exact fun hc => h hc.symm
            simp [List.filter_cons, hne, h]

/-- C1: on a valid order request whose items all resolve to active
products with sufficient stock, the created order's itemsPrice is the sum
of catalog price × requested quantity over the items, shipping is 0 from
$50 and $9.99 below, tax is 8% of itemsPrice, and the total is the sum of
the three. -/
theorem createOrder_totals (db : List Backend.Product) (r : Backend.CreateOrderReq)
    (oid uid : String)
    (hv : Backend.orderBodyValid r = true)
    (hall : r.items.all (Backend.itemPasses db) = true) :
    ∃ o, (Backend.createOrder db r oid uid).order = some o ∧
      o.itemsPrice
        = (r.items.map (fun i =>
            Backend.priceOf db i.product * (i.quantity : ℚ))).sum ∧
      o.shippingPrice = (if 50 ≤ o.itemsPrice then (0 : ℚ) else 999 / 100) ∧
      o.taxPrice = o.itemsPrice * (8 / 100) ∧
      o.totalPrice = o.itemsPrice + o.shippingPrice + o.taxPrice := by
  obtain ⟨os, hos⟩ := buildOrderItems_ok db r.items hall
  unfold Backend.createOrder
  rw [hv, hos]
  simp only [Bool.not_true, Bool.false_eq_true, if_false]
  exact ⟨_, rfl, rfl, rfl, rfl, rfl⟩

/-- C4: when any requested item has a missing or inactive product or stock
below the requested quantity, POST /api/orders answers 400, creates no
order and leaves every stock count unchanged; when the body is valid and
every item passes, an order is created and each product's stock drops by
exactly the total quantity requested for it. -/
theorem createOrder_stock (db : List Backend.Product) (r : Backend.CreateOrderReq)
    (oid uid : String) :
    (r.items.all (Backend.itemPasses db) = false →
      (Backend.createOrder db r oid uid).statusCode = 400 ∧
      (Backend.createOrder db r oid uid).order = none ∧
      (Backend.createOrder db r oid uid).db = db) ∧
    (Backend.orderBodyValid r = true → r.items.all (Backend.itemPasses db) = true →
      (∃ o, (Backend.createOrder db r oid uid).order = some o) ∧
      ∀ pid, Backend.stockOf (Backend.createOrder db r oid uid).db pid
        = (Backend.stockOf db pid).map
            (fun s => s - Backend.totalQty r.items pid)) := by
  constructor
  · intro hbad
    unfold Backend.createOrder
    cases hv : Backend.orderBodyValid r with
    | false => simp
    | true =>
        obtain ⟨e, he⟩ := buildOrderItems_err db r.items hbad
        rw [he]
        simp
  · intro hv hall
    obtain ⟨os, hos⟩ := buildOrderItems_ok db r.items hall
    unfold Backend.createOrder
    rw [hv, hos]
    simp only [Bool.not_true, Bool.false_eq_true, if_false]
    refine ⟨⟨_, rfl⟩, ?_⟩
    intro pid
    exact stockOf_apply r.items db pid

def sampleBProduct : Backend.Product :=
  { id := "p1", name := "Phone", price := 30, images := ["img"],
    isActive := true, stockCount := 10 }

def sampleAddr : Backend.ShippingAddress :=
  { firstName := "Ann", lastName := "Lee", email := "a@b.co",
    address := "1 Main St", city := "Tulsa", zipCode := "74101" }

def sampleReq : Backend.CreateOrderReq :=
  { items := [{ product := "p1", quantity := 2 }],
    shippingAddress := sampleAddr, paymentMethod := "stripe" }

def sampleBadReq : Backend.CreateOrderReq :=
  { items := [{ product := "p1", quantity := 99 }],
    shippingAddress := sampleAddr, paymentMethod := "stripe" }

theorem createOrder_totals_witness :
    ∃ o, (Backend.createOrder [sampleBProduct] sampleReq "o1" "u1").order = some o ∧
      o.itemsPrice
        = (sampleReq.items.map (fun i =>
            Backend.priceOf [sampleBProduct] i.product * (i.quantity : ℚ))).sum ∧
      o.shippingPrice = (if 50 ≤ o.itemsPrice then (0 : ℚ) else 999 / 100) ∧
      o.taxPrice = o.itemsPrice * (8 / 100) ∧
      o.totalPrice = o.itemsPrice + o.shippingPrice + o.taxPrice :=
  createOrder_totals [sampleBProduct] sampleReq "o1" "u1" (by decide) (by decide)

theorem createOrder_stock_witness :
    ((Backend.createOrder [sampleBProduct] sampleBadReq "o1" "u1").statusCode = 400 ∧
     (Backend.createOrder [sampleBProduct] sampleBadReq "o1" "u1").order = none ∧
     (Backend.createOrder [sampleBProduct] sampleBadReq "o1" "u1").db
       = [sampleBProduct]) ∧
    (∃ o, (Backend.createOrder [sampleBProduct] sampleReq "o1" "u1").order = some o) :=
  ⟨(createOrder_stock [sampleBProduct] sampleBadReq "o1" "u1").1 (by decide),
   ((createOrder_stock [sampleBProduct] sampleReq "o1" "u1").2 (by decide) (by decide)).1⟩

namespace Backend

/-- The status labels accepted by PUT /api/orders/:id/status. -/
def statusLabels : List String :=
  ["pending", "processing", "shipped", "delivered", "cancelled"]

/-- `Order.findById` over the order collection. -/
def findOrder (db : List Order) (oid : String) : Option Order :=
  db.find? (fun o => o.id == oid)

/-- The result of PUT /api/orders/:id/status. -/
structure UpdateStatusOutcome where
  statusCode : Nat
  message : String
  db : List Order
  deriving DecidableEq

/-- The mutation the status route applies to the found order: set the
status, set the tracking number when one is given (a JS empty string is
falsy and skipped), and on "delivered" also set isDelivered and
deliveredAt. -/
def applyStatus (status : String) (trackingNumber : Option String) (now : Int)
    (o : Order) : Order :=
  let o1 := { o with status := status }
  let o2 :=
    match trackingNumber with
    | some t => if t == "" then o1 else { o1 with trackingNumber := some t }
    | none => o1
  if status == "delivered" then
    { o2 with isDelivered := true, deliveredAt := some now }
  else o2

/-- PUT /api/orders/:id/status: reject a status outside the five labels
with 400 and no change; 404 when the order is missing; otherwise save the
mutated order. -/
def updateOrderStatus (db : List Order) (oid status : String)
    (trackingNumber : Option String) (now : Int) : UpdateStatusOutcome :=
  if !(statusLabels.contains status) then
    { statusCode := 400, message := "Validation failed", db := db }
  else
    match findOrder db oid with
    | none => { statusCode := 404, message := "Order not found", db := db }
    | some _ =>
        { statusCode := 200, message := "Order status updated successfully",
          db := db.map (fun o =>
            if o.id == oid then applyStatus status trackingNumber now o else o) }

end Backend

theorem findOrder_map (db : List Backend.Order) (oid : String)
    (f : Backend.Order → Backend.Order) (hf : ∀ o, (f o).id = o.id) :
    Backend.findOrder (db.map f) oid = (Backend.findOrder db oid).map f := by
  unfold Backend.findOrder
  rw [List.find?_map]
  have hpred : ((fun o : Backend.Order => o.id == oid) ∘ f)
      = (fun o : Backend.Order => o.id == oid) := by
    funext o
    simp [Function.comp, hf o]
  rw [hpred]

theorem applyStatus_id (status : String) (tn : Option String) (now : Int)
    (o : Backend.Order) : (Backend.applyStatus status tn now o).id = o.id := by
  unfold Backend.applyStatus
  cases tn with
  | none => by_cases hd : (status == "delivered") = true <;> simp [hd]
  | some t =>
      by_cases hd : (status == "delivered") = true <;>
        by_cases ht : (t == "") = true <;> simp [hd, ht]

theorem applyStatus_status (status : String) (tn : Option String) (now : Int)
    (o : Backend.Order) : (Backend.applyStatus status tn now o).status = status := by
  unfold Backend.applyStatus
  cases tn with
  | none => by_cases hd : (status == "delivered") = true <;> simp [hd]
  | some t =>
      by_cases hd : (status == "delivered") = true <;>
        by_cases ht : (t == "") = true <;> simp [hd, ht]

theorem applyStatus_delivered (status : String) (tn : Option String) (now : Int)
    (o : Backend.Order) :
    (status = "delivered" →
      (Backend.applyStatus status tn now o).isDelivered = true ∧
      (Backend.applyStatus status tn now o).deliveredAt = some now) ∧
    (status ≠ "delivered" →
      (Backend.applyStatus status tn now o).isDelivered = o.isDelivered ∧
      (Backend.applyStatus status tn now o).deliveredAt = o.deliveredAt) := by
  unfold Backend.applyStatus
  constructor
  · intro hd
    subst hd
    cases tn with
    | none => simp
    | some t => by_cases ht : (t == "") = true <;> simp [ht]
  · intro hd
    have hd2 : ¬ (status == "delivered") = true := by
      simpa using hd
    cases tn with
    | none => simp [hd2]
    | some t => by_cases ht : (t == "") = true <;> simp [hd2, ht]

/-- C3: the status route accepts exactly the five labels; any other status
answers 400 with a validation failure and leaves the collection unchanged;
a valid label on an existing order sets that order's status, additionally
setting isDelivered and deliveredAt when the label is "delivered" and
leaving them untouched otherwise. -/
theorem updateOrderStatus_spec (db : List Backend.Order) (oid status : String)
    (tn : Option String) (now : Int) :
    (status ∉ Backend.statusLabels →
      (Backend.updateOrderStatus db oid status tn now).statusCode = 400 ∧
      (Backend.updateOrderStatus db oid status tn now).message = "Validation failed" ∧
      (Backend.updateOrderStatus db oid status tn now).db = db) ∧
    (status ∈ Backend.statusLabels →
      ∀ o, Backend.findOrder db oid = some o →
        ∃ o2, Backend.findOrder (Backend.updateOrderStatus db oid status tn now).db oid
            = some o2 ∧
          o2.status = status ∧
          (status = "delivered" →
            o2.isDelivered = true ∧ o2.deliveredAt = some now) ∧
          (status ≠ "delivered" →
            o2.isDelivered = o.isDelivered ∧ o2.deliveredAt = o.deliveredAt)) := by
  constructor
  · intro hbad
    have hc : Backend.statusLabels.contains status = false := by
      rw [← Bool.not_eq_true]
      intro hc
      exact hbad (List.elem_iff.mp hc)
    unfold Backend.updateOrderStatus
    rw [hc]
    simp
  · intro hgood o ho
    have hc : Backend.statusLabels.contains status = true :=
      List.elem_iff.mpr hgood
    unfold Backend.updateOrderStatus
    rw [hc]
    simp only [Bool.not_true, Bool.false_eq_true, if_false]
    rw [ho]
    simp only
    have hmap := findOrder_map db oid
      (fun x => if x.id == oid then Backend.applyStatus status tn now x else x)
      (by
        intro x
        by_cases hx : (x.id == oid) = true <;>
          simp [hx, applyStatus_id])
    rw [hmap, ho]
    have hid : o.id = oid := by
      unfold Backend.findOrder at ho
      have := List.find?_some ho
      simpa using this
    refine ⟨Backend.applyStatus status tn now o, ?_, ?_, ?_, ?_⟩
    · simp [hid]
    · exact applyStatus_status status tn now o
    · exact (applyStatus_delivered status tn now o).1
    · exact (applyStatus_delivered status tn now o).2

def sampleOrder : Backend.Order :=
  { id := "o1", user := "u1",
    items := [{ product := "p1", name := "Phone", price := 30, quantity := 2,
                image := some "img" }],
    shippingAddress := sampleAddr, paymentMethod := "stripe",
    itemsPrice := 60, taxPrice := 5, shippingPrice := 0,
    totalPrice := 65, status := "pending", isPaid := false,
    paidAt := none, paymentResult := none, isDelivered := false,
    deliveredAt := none, trackingNumber := none }

theorem updateOrderStatus_spec_witness :
    ((Backend.updateOrderStatus [sampleOrder] "o1" "returned" none 7).statusCode = 400 ∧
     (Backend.updateOrderStatus [sampleOrder] "o1" "returned" none 7).message
       = "Validation failed" ∧
     (Backend.updateOrderStatus [sampleOrder] "o1" "returned" none 7).db
       = [sampleOrder]) ∧
    (∃ o2, Backend.findOrder
          (Backend.updateOrderStatus [sampleOrder] "o1" "shipped" none 7).db "o1"
        = some o2 ∧
      o2.status = "shipped" ∧
      ("shipped" = "delivered" → o2.isDelivered = true ∧ o2.deliveredAt = some 7) ∧
      ("shipped" ≠ "delivered" →
        o2.isDelivered = sampleOrder.isDelivered ∧
        o2.deliveredAt = sampleOrder.deliveredAt)) :=
  ⟨(updateOrderStatus_spec [sampleOrder] "o1" "returned" none 7).1 (by decide),
   (updateOrderStatus_spec [sampleOrder] "o1" "shipped" none 7).2 (by decide)
     sampleOrder (by decide)⟩

namespace Backend

/-- The Stripe payment intent as the payment routes read it: id, status,
receipt email, and the orderId stored in its metadata at creation. The
object itself lives at Stripe; the handlers only retrieve it. -/
structure PaymentIntent where
  id : String
  status : String
  receiptEmail : Option String
  metadataOrderId : Option String
  deriving DecidableEq

/-- The result of POST /api/payments/confirm-payment: HTTP status,
message, the order collection afterwards, and the order written by
`order.save()` when one was written. -/
structure ConfirmOutcome where
  statusCode : Nat
  message : String
  db : List Order
  saved : Option Order
  deriving DecidableEq

/-- POST /api/payments/confirm-payment after body validation, applied to
the retrieved payment intent: refuse with 400 unless the intent
succeeded, 403 unless the order exists and belongs to the requester, else
mark the order paid, record the payment result, and move it to
"processing". -/
def confirmPayment (intent : PaymentIntent) (db : List Order)
    (orderId userId : String) (now : Int) : ConfirmOutcome :=
  if intent.status != "succeeded" then
    { statusCode := 400, message := "Payment not completed", db := db,
      saved := none }
  else
    match findOrder db orderId with
    | none =>
        { statusCode := 403, message := "Order not found or access denied",
          db := db, saved := none }
    | some o =>
        if o.user != userId then
          { statusCode := 403, message := "Order not found or access denied",
            db := db, saved := none }
        else
          let o2 : Order :=
            { o with
              isPaid := true,
              paidAt := some now,
              paymentResult := some { id := intent.id, status := intent.status,
                                      updateTime := now,
                                      emailAddress := intent.receiptEmail.getD "" },
              status := "processing" }
          { statusCode := 200, message := "Payment confirmed successfully",
            db := db.map (fun x => if x.id == orderId then o2 else x),
            saved := some o2 }

/-- The payment_intent.succeeded branch of the Stripe webhook: when the
intent carries an orderId in its metadata, that order is updated to paid,
paidAt now, status "processing"; otherwise nothing changes. -/
def webhookSucceeded (intent : PaymentIntent) (db : List Order) (now : Int) :
    List Order :=
  match intent.metadataOrderId with
  | none => db
  | some oid =>
      db.map (fun o =>
        if o.id == oid then
          { o with isPaid := true, paidAt := some now, status := "processing" }
        else o)

/-- The payment-relevant projection of an order: isPaid, paidAt, status. -/
def payState (o : Order) : Bool × Option Int × String :=
  (o.isPaid, o.paidAt, o.status)

end Backend

/-- C5: confirm-payment marks the order paid (isPaid, paidAt, recorded
paymentResult, status "processing") exactly when the retrieved intent has
status "succeeded" and the order exists and belongs to the requesting
user; a non-succeeded intent answers 400 "Payment not completed" and
changes nothing. -/
theorem confirmPayment_spec (intent : Backend.PaymentIntent)
    (db : List Backend.Order) (orderId userId : String) (now : Int) :
    ((∃ o2, (Backend.confirmPayment intent db orderId userId now).saved = some o2 ∧
        o2.isPaid = true ∧ o2.paidAt = some now ∧ o2.status = "processing" ∧
        o2.paymentResult = some { id := intent.id, status := intent.status,
                                  updateTime := now,
                                  emailAddress := intent.receiptEmail.getD "" })
      ↔ (intent.status = "succeeded" ∧
         ∃ o, Backend.findOrder db orderId = some o ∧ o.user = userId)) ∧
    (intent.status ≠ "succeeded" →
      (Backend.confirmPayment intent db orderId userId now).statusCode = 400 ∧
      (Backend.confirmPayment intent db orderId userId now).message
        = "Payment not completed" ∧
      (Backend.confirmPayment intent db orderId userId now).db = db ∧
      (Backend.confirmPayment intent db orderId userId now).saved = none) := by
  by_cases hs : intent.status = "succeeded"
  · have hbne : (intent.status != "succeeded") = false := by simp [hs]
    constructor
    · unfold Backend.confirmPayment
      rw [hbne]
      simp only [Bool.false_eq_true, if_false]
      cases ho : Backend.findOrder db orderId with
      | none =>
          constructor
          · rintro ⟨o2, hno, _⟩
            simp at hno
          · rintro ⟨_, o, hoo, _⟩
            cases hoo
      | some o =>
          by_cases hu : (o.user != userId) = true
          · simp only [hu, if_true]
            constructor
            · rintro ⟨o2, hno, _⟩
              simp at hno
            · rintro ⟨_, o3, hoo, huu⟩
              cases hoo
              rw [huu] at hu
              simp at hu
          · simp only [hu, if_false]
            constructor
            · intro _
              refine ⟨hs, o, rfl, ?_⟩
              simpa using hu
            · intro _
              refine ⟨{ o with
                isPaid := true,
                paidAt := some now,
                paymentResult := some { id := intent.id, status := intent.status,
                                        updateTime := now,
                                        emailAddress := intent.receiptEmail.getD "" },
                status := "processing" }, rfl, rfl, rfl, rfl, rfl⟩
    · intro hne
      exact absurd hs hne
  · have hbne : (intent.status != "succeeded") = true := by simpa using hs
    constructor
    · unfold Backend.confirmPayment
      rw [hbne]
      simp only [if_true]
      constructor
      · rintro ⟨o2, hno, _⟩
        simp at hno
      · rintro ⟨hss, _⟩
        exact absurd hss hs
    · intro _
      unfold Backend.confirmPayment
      rw [hbne]
      simp

/-- C6: for the same succeeded payment intent attached to an order owned
by the requesting user, confirm-payment and the webhook's
payment_intent.succeeded branch leave that order in the same payment
state: isPaid true, paidAt set to the handling time, status
"processing". -/
theorem webhook_confirm_equiv (intent : Backend.PaymentIntent)
    (db : List Backend.Order) (oid uid : String) (now : Int) (o : Backend.Order)
    (hs : intent.status = "succeeded")
    (hm : intent.metadataOrderId = some oid)
    (ho : Backend.findOrder db oid = some o)
    (hu : o.user = uid) :
    (Backend.findOrder (Backend.confirmPayment intent db oid uid now).db oid).map
        Backend.payState
      = (Backend.findOrder (Backend.webhookSucceeded intent db now) oid).map
          Backend.payState ∧
    (Backend.findOrder (Backend.webhookSucceeded intent db now) oid).map
        Backend.payState = some (true, some now, "processing") := by
  have hid : o.id = oid := by
    unfold Backend.findOrder at ho
    have := List.find?_some ho
    simpa using this
  have hbne : (intent.status != "succeeded") = false := by simp [hs]
  have hubne : (o.user != uid) = false := by simp [hu]
  have hW : (Backend.findOrder (Backend.webhookSucceeded intent db now) oid).map
      Backend.payState = some (true, some now, "processing") := by
    unfold Backend.webhookSucceeded
    rw [hm]
    rw [findOrder_map]
    · rw [ho]
      simp [Backend.payState, hid]
    · intro x
      by_cases hx : (x.id == oid) = true <;> simp [hx]
  have hC : (Backend.findOrder (Backend.confirmPayment intent db oid uid now).db oid).map
      Backend.payState = some (true, some now, "processing") := by
    unfold Backend.confirmPayment
    rw [hbne]
    simp only [Bool.false_eq_true, if_false]
    rw [ho]
    simp only [hubne, Bool.false_eq_true, if_false]
    rw [findOrder_map]
    · rw [ho]
      simp [Backend.payState, hid]
    · intro x
      by_cases hx : (x.id == oid) = true
      · have hxeq : x.id = oid := by simpa using hx
        simp [hx, hid, hxeq]
      · simp [hx]
  exact ⟨hC.trans hW.symm, hW⟩

def sampleIntent : Backend.PaymentIntent :=
  { id := "pi1", status := "succeeded", receiptEmail := some "a@b.co",
    metadataOrderId := some "o1" }

def sampleFailedIntent : Backend.PaymentIntent :=
  { id := "pi2", status := "requires_payment_method", receiptEmail := none,
    metadataOrderId := some "o1" }

theorem confirmPayment_spec_witness :
    (∃ o2, (Backend.confirmPayment sampleIntent [sampleOrder] "o1" "u1" 7).saved
        = some o2 ∧
      o2.isPaid = true ∧ o2.paidAt = some 7 ∧ o2.status = "processing" ∧
      o2.paymentResult = some { id := sampleIntent.id, status := sampleIntent.status,
                                updateTime := 7,
                                emailAddress := sampleIntent.receiptEmail.getD "" }) ∧
    ((Backend.confirmPayment sampleFailedIntent [sampleOrder] "o1" "u1" 7).statusCode
        = 400 ∧
     (Backend.confirmPayment sampleFailedIntent [sampleOrder] "o1" "u1" 7).message
        = "Payment not completed" ∧
     (Backend.confirmPayment sampleFailedIntent [sampleOrder] "o1" "u1" 7).db
        = [sampleOrder] ∧
     (Backend.confirmPayment sampleFailedIntent [sampleOrder] "o1" "u1" 7).saved
        = none) :=
  ⟨(confirmPayment_spec sampleIntent [sampleOrder] "o1" "u1" 7).1.mpr
      ⟨by decide, sampleOrder, by decide, by decide⟩,
   (confirmPayment_spec sampleFailedIntent [sampleOrder] "o1" "u1" 7).2 (by decide)⟩

theorem webhook_confirm_equiv_witness :
    (Backend.findOrder
        (Backend.confirmPayment sampleIntent [sampleOrder] "o1" "u1" 7).db "o1").map
      Backend.payState
      = (Backend.findOrder
          (Backend.webhookSucceeded sampleIntent [sampleOrder] 7) "o1").map
        Backend.payState ∧
    (Backend.findOrder
        (Backend.webhookSucceeded sampleIntent [sampleOrder] 7) "o1").map
      Backend.payState = some (true, some 7, "processing") :=
  webhook_confirm_equiv sampleIntent [sampleOrder] "o1" "u1" 7 sampleOrder
    (by decide) (by decide) (by decide) (by decide)
